import Mathlib

/-!
Verification development for the sale-transaction engine of `pos_system.py`
(a single-session tkinter/SQLite point-of-sale application).

The engine is shallowly embedded: Python floats that hold money amounts are
modelled as exact rationals (`ℚ`), Python ints as `ℤ`/`ℕ`, SQLite tables as
Lean lists, and the GUI methods of `SalesFrame` / `DatabaseManager` as pure
functions over an explicit state.  Fallible operations return `Except`.
`tkinter` message boxes and status labels only display the errors we model;
they do not affect the engine state and are omitted.
-/

namespace POS

/-- Record of one catalog product (`Product` dataclass in the source;
row of the `products` table, whose schema has `CHECK(price >= 0)` and
`CHECK(stock >= 0)` constraints). -/
structure Product where
  product_id : String
  name : String
  price : ℚ
  stock : ℤ
deriving Repr, DecidableEq

/-- One cart entry: the value of `SalesFrame.cart[product_id]`, a dict with
keys `name`, `price`, `quantity`, `line_total`.  `price` is the snapshot
unit price captured when the line was first added. -/
structure CartLine where
  name : String
  price : ℚ
  quantity : ℤ
  line_total : ℚ
deriving Repr, DecidableEq

/-- The cart `SalesFrame.cart : Dict[str, Dict]`.  Python dicts preserve
insertion order and hold at most one entry per key, so the cart is an
association list whose keys are unique along every reachable execution. -/
abbrev Cart := List (String × CartLine)

/-- One element of a sale's `items` payload (`items_payload` in
`finalize_sale`). -/
structure SaleItem where
  product_id : String
  name : String
  quantity : ℤ
  price : ℚ
  line_total : ℚ
deriving Repr, DecidableEq

/-- Row of the `sales_log` table: `(timestamp, subtotal, tax, total, items)`
(the autoincrement `sale_id` is the row's 1-based position in our list
model, where rows are only ever appended). -/
structure SaleRow where
  timestamp : String
  subtotal : ℚ
  tax : ℚ
  total : ℚ
  items : List SaleItem
deriving Repr, DecidableEq

/-- The `SaleRecord` dataclass returned by `finalize_sale`: note it carries
`sale_id`, `timestamp`, `subtotal`, `total` and `items` but no `tax` field.
The `datetime` timestamp is modelled by its rendered form (the string
`strftime('%Y-%m-%d %H:%M:%S')` produces), which is all the engine uses. -/
structure SaleRecord where
  sale_id : ℕ
  timestamp : String
  subtotal : ℚ
  total : ℚ
  items : List SaleItem
deriving Repr, DecidableEq

/-- Errors surfaced by the sales frame.  Payloads mirror the kwargs the
source passes to the translated error messages (`insufficient_stock` is
shown with the product's name and available stock). -/
inductive POSError where
  | invalidQuantity
  | productNotFound (product_id : String)
  | insufficientStock (name : String) (stock : ℤ)
  | emptyCart
  | databaseError
deriving Repr, DecidableEq

/-- Lookup in an inventory snapshot: `self.inventory_cache.get(product_id)`,
where the cache dict is built as `{p.product_id: p for p in products}`. -/
def lookupProduct (cache : List Product) (product_id : String) : Option Product :=
  cache.find? fun p => p.product_id == product_id

/-- Lookup of a cart line: `self.cart.get(product_id)` /
`product_id in self.cart`. -/
def lookupLine (cart : Cart) (product_id : String) : Option CartLine :=
  (cart.find? fun e => e.1 == product_id).map (·.2)

/-- In-place update of an existing cart line, as performed by
`add_to_cart`: `cart[pid]["quantity"] = new_qty` followed by
`cart[pid]["line_total"] = new_qty * product.price` (the `name` and `price`
entries are left untouched; dict update preserves key order). -/
def setLineQty (cart : Cart) (product_id : String) (new_qty : ℤ) (price : ℚ) : Cart :=
  cart.map fun e =>
    if e.1 == product_id then
      (e.1, { e.2 with quantity := new_qty, line_total := new_qty * price })
    else e

/-- `SalesFrame.add_to_cart`, acting on the cart and the inventory snapshot
`self.inventory_cache`.  The quantity argument models
`int(self.quantity_var.get())`: `none` stands for text on which Python's
`int()` raises `ValueError` (non-numeric input), `some q` for a parsed
integer.  The GUI method mutates `self.cart` only on the success paths and
returns early (cart untouched) on every error path, which the `Except`
result captures. -/
def add_to_cart (cart : Cart) (cache : List Product) (product_id : String)
    (quantity : Option ℤ) : Except POSError Cart :=
  match quantity with
  | none => .error .invalidQuantity
  | some q =>
    if q ≤ 0 then .error .invalidQuantity
    else
      match lookupProduct cache product_id with
      | none => .error (.productNotFound product_id)
      | some product =>
        if product.stock < q then
          .error (.insufficientStock product.name product.stock)
        else
          match lookupLine cart product_id with
          | some line =>
            let new_qty := line.quantity + q
            if product.stock < new_qty then
              .error (.insufficientStock product.name product.stock)
            else .ok (setLineQty cart product_id new_qty product.price)
          | none =>
            .ok (cart ++ [(product_id,
              { name := product.name, price := product.price,
                quantity := q, line_total := q * product.price })])

/-- Observable engine state at finalize time: the persistent `products`
table, the persistent `sales_log` table, and the in-memory cart. -/
structure SalesState where
  products : List Product
  sales_log : List SaleRow
  cart : Cart
deriving Repr, DecidableEq

/-- Revalidation loop of `finalize_sale`: every cart line is checked against
the fresh snapshot; the first failing line aborts with its error. -/
def revalidate : Cart → List Product → Except POSError Unit
  | [], _ => .ok ()
  | (product_id, line) :: rest, cache =>
    match lookupProduct cache product_id with
    | none => .error (.productNotFound product_id)
    | some product =>
      if product.stock < line.quantity then
        .error (.insufficientStock product.name product.stock)
      else revalidate rest cache

/-- Cart subtotal: `sum(item["line_total"] for item in self.cart.values())`. -/
def cartSubtotal (cart : Cart) : ℚ :=
  (cart.map fun e => e.2.line_total).sum

/-- The `items_payload` list built by `finalize_sale` from the cart. -/
def cartItems (cart : Cart) : List SaleItem :=
  cart.map fun e =>
    { product_id := e.1, name := e.2.name, quantity := e.2.quantity,
      price := e.2.price, line_total := e.2.line_total }

/-- Effect of `UPDATE products SET stock = ? WHERE product_id = ?` on the
products table. -/
def setStock (products : List Product) (product_id : String) (new_stock : ℤ) :
    List Product :=
  products.map fun p =>
    if p.product_id == product_id then { p with stock := new_stock } else p

/-- One raw stock `UPDATE` inside the commit loop of `finalize_sale`.  The
`CHECK(stock >= 0)` schema constraint raises `sqlite3.IntegrityError`
(a `DatabaseError`) when a matched row would be set negative; with no
matching row the statement succeeds and changes nothing. -/
def sqlUpdateStock (products : List Product) (product_id : String) (new_stock : ℤ) :
    Except Unit (List Product) :=
  if (products.any fun p => p.product_id == product_id) ∧ new_stock < 0 then .error ()
  else .ok (setStock products product_id new_stock)

/-- Commit loop of `finalize_sale`: for every cart line, recompute
`new_stock = cache[product_id].stock - quantity` from the fresh snapshot and
issue the stock `UPDATE`.  All updates plus the `sales_log` insert run on
one connection whose transaction is rolled back if any statement fails, so
an error here leaves the whole table list unchanged at the call site.  A
missing cache entry (`KeyError`, unreachable after revalidation) likewise
aborts the transaction. -/
def commitStock : Cart → List Product → List Product → Except Unit (List Product)
  | [], _, products => .ok products
  | (product_id, line) :: rest, cache, products =>
    match lookupProduct cache product_id with
    | none => .error ()
    | some product =>
      match sqlUpdateStock products product_id (product.stock - line.quantity) with
      | .error e => .error e
      | .ok products1 => commitStock rest cache products1

/-- `SalesFrame.finalize_sale`.  `now` models `datetime.utcnow()` rendered
as a timestamp string.  Steps, as in the source: reject an empty cart; take
a fresh snapshot (`_refresh_inventory_cache`, i.e. the current products
table); revalidate every line against it; compute `subtotal`, `total =
subtotal` and the items payload from the cart; run the transactional commit
(stock updates plus one `sales_log` insert with the literal tax `0.0`); on
success clear the cart and return the `SaleRecord`.  Every failure path
returns before any state change (for a commit failure, after rollback). -/
def finalize_sale (now : String) (st : SalesState) : SalesState × Except POSError SaleRecord :=
  if st.cart.isEmpty then (st, .error .emptyCart)
  else
    let cache := st.products
    match revalidate st.cart cache with
    | .error e => (st, .error e)
    | .ok _ =>
      let subtotal := cartSubtotal st.cart
      let total := subtotal
      let items := cartItems st.cart
      match commitStock st.cart cache st.products with
      | .error _ => (st, .error .databaseError)
      | .ok products1 =>
        let sale_id := st.sales_log.length + 1
        let row : SaleRow :=
          { timestamp := now, subtotal := subtotal, tax := 0, total := total, items := items }
        let record : SaleRecord :=
          { sale_id := sale_id, timestamp := now, subtotal := subtotal,
            total := total, items := items }
        ({ products := products1, sales_log := st.sales_log ++ [row], cart := [] },
         .ok record)

/-- Errors of `DatabaseManager.update_stock`: the explicit
`ValueError("Product not found when updating stock")` raised when the
`UPDATE` matched no row, and the `sqlite3.IntegrityError` raised by the
schema's `CHECK(stock >= 0)` constraint when a matched row would be set to
a negative value. -/
inductive DBError where
  | productNotFound
  | integrityError
deriving Repr, DecidableEq

/-- `DatabaseManager.update_stock(product_id, new_stock)`: runs
`UPDATE products SET stock = ? WHERE product_id = ?` with the given
absolute value and raises if `cursor.rowcount == 0`.  A matched row with a
negative new value trips the `CHECK` constraint during the statement,
before the rowcount test. -/
def update_stock (products : List Product) (product_id : String) (new_stock : ℤ) :
    Except DBError (List Product) :=
  if products.any fun p => p.product_id == product_id then
    if new_stock < 0 then .error .integrityError
    else .ok (setStock products product_id new_stock)
  else .error .productNotFound

/-- One user-driven `add_to_cart` request: the inventory snapshot the sales
frame holds when the button is pressed, the product id entered, and the
(possibly unparseable) quantity entered. -/
structure AddRequest where
  cache : List Product
  product_id : String
  quantity : Option ℤ
deriving Repr, DecidableEq

/-- A session of `add_to_cart` calls: each failed call shows an error and
leaves the cart as it was, each successful call replaces it. -/
def applyAdds : Cart → List AddRequest → Cart
  | cart, [] => cart
  | cart, r :: rs =>
    match add_to_cart cart r.cache r.product_id r.quantity with
    | .ok cart1 => applyAdds cart1 rs
    | .error _ => applyAdds cart rs

/-- Observation of a products table that forgets prices and names: the
`(product_id, stock)` column pair, in table order. -/
def stockView (products : List Product) : List (String × ℤ) :=
  products.map fun p => (p.product_id, p.stock)

/-- Concrete one-product inventory used by several witnesses. -/
def exInv : List Product :=
  [{ product_id := "P1", name := "Widget", price := 5/2, stock := 10 }]

/-- Concrete state whose single cart line requests more (5) than the fresh
stock (3): revalidation fails on it. -/
def lowStockState : SalesState :=
  { products := [⟨"P1", "Widget", 5/2, 3⟩],
    sales_log := [],
    cart := [("P1", ⟨"Widget", 5/2, 5, 25/2⟩)] }

/-- Cart of the spec's Scenario B: P1 qty 6 at price 2.50 and P2 qty 1 at
price 9.99 (line totals 15.00 and 9.99). -/
def cartB : Cart :=
  [("P1", ⟨"Apple", 5/2, 6, 15⟩), ("P2", ⟨"Boxed Tea", 999/100, 1, 999/100⟩)]

/-- Scenario-B products table: both products amply stocked. -/
def prodB : List Product :=
  [⟨"P1", "Apple", 5/2, 10⟩, ⟨"P2", "Boxed Tea", 999/100, 4⟩]

/-- Scenario-B state: the Scenario-B table and cart, empty sales log. -/
def stateB : SalesState :=
  { products := prodB, sales_log := [], cart := cartB }

/-- Display pattern of a supported currency.  The source stores Python
format strings; the four entries use three distinct layouts, embedded here
as functions of the symbol and the formatted value.  (The `code` keyword
argument `format_currency` also supplies is unused by every pattern.) -/
inductive CurrencyPattern where
  | symbolThenValue
  | valueSpaceSymbol
  | symbolValueSuffixMXN
deriving Repr, DecidableEq

/-- Application of a currency pattern to the symbol and formatted value. -/
def applyPattern : CurrencyPattern → String → String → String
  | .symbolThenValue, symbol, value => symbol ++ value
  | .valueSpaceSymbol, symbol, value => value ++ " " ++ symbol
  | .symbolValueSuffixMXN, symbol, value => symbol ++ value ++ " MXN"

/-- One entry of `SUPPORTED_CURRENCIES`. -/
structure CurrencyInfo where
  name : String
  symbol : String
  pattern : CurrencyPattern
deriving Repr, DecidableEq

/-- The `SUPPORTED_CURRENCIES` table. -/
def SUPPORTED_CURRENCIES : List (String × CurrencyInfo) :=
  [("USD", { name := "US Dollar", symbol := "$", pattern := .symbolThenValue }),
   ("EUR", { name := "Euro", symbol := "€", pattern := .valueSpaceSymbol }),
   ("MXN", { name := "Peso mexicano", symbol := "$", pattern := .symbolValueSuffixMXN }),
   ("MDH", { name := "Moroccan Dirham", symbol := "د.م.", pattern := .valueSpaceSymbol })]

/-- `DEFAULT_CURRENCY = "USD"`. -/
def DEFAULT_CURRENCY : String := "USD"

/-- String of `n` spaces. -/
def spaces (n : ℕ) : String := String.mk (List.replicate n ' ')

/-- String of `n` copies of a character (Python `c * n` for a 1-char
string). -/
def repChar (c : Char) (n : ℕ) : String := String.mk (List.replicate n c)

/-- Right alignment in a field of width `w` (Python format spec `>`); a
string at least `w` characters long is returned unchanged. -/
def padLeft (s : String) (w : ℕ) : String := spaces (w - s.length) ++ s

/-- Left alignment in a field of width `w` (Python format spec `<`). -/
def padRight (s : String) (w : ℕ) : String := s ++ spaces (w - s.length)

/-- Python `str.center(w)`: CPython computes `marg = w - len(s)` and puts
`marg // 2 + (marg & w & 1)` of the pad on the left. -/
def center (s : String) (w : ℕ) : String :=
  let marg := w - s.length
  let left := marg / 2 + (if marg % 2 = 1 ∧ w % 2 = 1 then 1 else 0)
  spaces left ++ s ++ spaces (marg - left)

/-- Grouping of a reversed digit list into blocks of three (helper for the
thousands separator of the numeric format spec). -/
def chunk3 : List Char → List (List Char)
  | [] => []
  | [a] => [[a]]
  | [a, b] => [[a, b]]
  | a :: b :: c :: rest => [a, b, c] :: chunk3 rest

/-- Decimal digits of `n` with a comma every three digits from the right. -/
def commaGroup (n : ℕ) : String :=
  let rev := (toString n).data.reverse
  String.intercalate "," ((chunk3 rev).map fun block => String.mk block.reverse).reverse

/-- Two-decimal comma-grouped rendering of an exact amount: the effect of
the source's numeric display format (thousands separator, two fractional
digits) on amounts that are exact cents, with rounding to the nearest cent
for others.  (The source formats IEEE floats; the engine's amounts are sums
and products of two-decimal inputs, which this exact model renders
identically.) -/
def formatValue (amount : ℚ) : String :=
  let sign := if amount < 0 then "-" else ""
  let a := if amount < 0 then -amount else amount
  let cents : ℕ := (⌊a * 100 + 1 / 2⌋).toNat
  let frac := cents % 100
  sign ++ commaGroup (cents / 100) ++ "." ++
    (if frac < 10 then "0" else "") ++ toString frac

/-- `format_currency(amount, currency_code)`: looks the code up in
`SUPPORTED_CURRENCIES`, falling back to the `DEFAULT_CURRENCY` (USD) entry
when absent, then applies the entry's pattern.  Total by construction: it
returns a string for every amount and every code string. -/
def format_currency (amount : ℚ) (currency_code : String) : String :=
  let currency :=
    (((SUPPORTED_CURRENCIES.find? fun e => e.1 == currency_code).map (·.2)).getD
      { name := "US Dollar", symbol := "$", pattern := .symbolThenValue })
  applyPattern currency.pattern currency.symbol (formatValue amount)

/-- The `TRANSLATIONS` catalog, restricted to the keys `format_invoice`
consumes.  (The `invoice.columns` entry is a row-format pattern identical
in all four languages; it is embedded as the function `columnsRow`.) -/
def TRANSLATIONS : List (String × List (String × String)) :=
  [("invoice.header",
    [("en", "POS System Invoice"), ("es", "Factura del sistema POS"),
     ("fr", "Facture du système POS"), ("ar", "فاتورة نظام نقاط البيع")]),
   ("invoice.sale_number",
    [("en", "Sale #"), ("es", "Venta #"), ("fr", "Vente #"), ("ar", "رقم البيع")]),
   ("invoice.completed",
    [("en", "Completed:"), ("es", "Completado:"), ("fr", "Terminé :"), ("ar", "مكتمل:")]),
   ("invoice.column.id",
    [("en", "ID"), ("es", "ID"), ("fr", "ID"), ("ar", "المعرف")]),
   ("invoice.column.product",
    [("en", "Product"), ("es", "Producto"), ("fr", "Produit"), ("ar", "المنتج")]),
   ("invoice.column.qty",
    [("en", "Qty"), ("es", "Cant."), ("fr", "Qté"), ("ar", "الكمية")]),
   ("invoice.column.price",
    [("en", "Price"), ("es", "Precio"), ("fr", "Prix"), ("ar", "السعر")]),
   ("invoice.column.total",
    [("en", "Total"), ("es", "Total"), ("fr", "Total"), ("ar", "الإجمالي")]),
   ("invoice.subtotal",
    [("en", "Subtotal:"), ("es", "Subtotal:"), ("fr", "Sous-total :"),
     ("ar", "الإجمالي الفرعي:")]),
   ("invoice.total",
    [("en", "Balance Due:"), ("es", "Total:"), ("fr", "Montant dû :"),
     ("ar", "المبلغ المستحق:")]),
   ("invoice.footer",
    [("en", "Thank you for shopping with us!"), ("es", "¡Gracias por su compra!"),
     ("fr", "Merci de votre achat !"), ("ar", "شكراً لتسوقكم معنا!")])]

/-- `translate(language, key)`: the entry for the language, else the
English entry, else the key itself (all catalog strings are non-empty, so
Python's falsy-`or` chain is the `Option` fallback chain). -/
def translate (language key : String) : String :=
  let catalog := ((TRANSLATIONS.find? fun e => e.1 == key).map (·.2)).getD []
  match (catalog.find? fun e => e.1 == language).map (·.2) with
  | some template => template
  | none => (((catalog.find? fun e => e.1 == "en").map (·.2)).getD key)

/-- Layout shared by the invoice column header and every item row:
id left-aligned in 10, name left-aligned in 26, quantity right-aligned in
5, price right-aligned in 16, line total right-aligned in 15. -/
def columnsRow (id name qty price total : String) : String :=
  padRight id 10 ++ padRight name 26 ++ padLeft qty 5 ++
    padLeft price 16 ++ padLeft total 15

/-- Display truncation of an item name: names longer than 26 characters are
cut to their first 23 characters plus `"..."`. -/
def truncName (name : String) : String :=
  if 26 < name.length then String.mk (name.data.take 23) ++ "..." else name

/-- `format_invoice(sale, app)`.  The `app` argument is consulted only via
`app.t` (label catalog keyed by the configured language) and
`app.format_money` (currency pattern keyed by the configured currency), so
the formatting configuration is exactly the `(language, currency)` pair and
the function is embedded as a pure function of the sale record and that
pair: it reads no other state and writes nothing. -/
def format_invoice (sale : SaleRecord) (language currency : String) : String :=
  let t := fun key => translate language key
  let money := fun (a : ℚ) => format_currency a currency
  let header_width := 72
  let header : List String :=
    [center (t "invoice.header") header_width,
     repChar '=' header_width,
     t "invoice.sale_number" ++ " " ++ toString sale.sale_id,
     t "invoice.completed" ++ " " ++ sale.timestamp,
     repChar '=' header_width,
     columnsRow (t "invoice.column.id") (t "invoice.column.product")
       (t "invoice.column.qty") (t "invoice.column.price") (t "invoice.column.total"),
     repChar '-' header_width]
  let rows : List String :=
    sale.items.map fun item =>
      columnsRow item.product_id (truncName item.name) (toString item.quantity)
        (money item.price) (money item.line_total)
  let footer : List String :=
    [repChar '-' header_width,
     padLeft (t "invoice.subtotal") 56 ++ padLeft (money sale.subtotal) 16,
     padLeft (t "invoice.total") 56 ++ padLeft (money sale.total) 16,
     repChar '=' header_width,
     t "invoice.footer"]
  String.intercalate "\n" (header ++ rows ++ footer)

/-! Helper lemmas shared by the claim theorems. -/

/-- A successful snapshot lookup returns a member of the snapshot whose id
is the key looked up. -/
theorem lookupProduct_mem {cache : List Product} {pid : String} {p : Product}
    (h : lookupProduct cache pid = some p) : p ∈ cache ∧ p.product_id = pid := by
  unfold lookupProduct at h
  exact ⟨List.mem_of_find?_eq_some h, by simpa using List.find?_some h⟩

/-- Updating a line in place preserves the cart's key sequence: no line is
added, removed or reordered. -/
theorem setLineQty_keys (cart : Cart) (product_id : String) (new_qty : ℤ) (price : ℚ) :
    (setLineQty cart product_id new_qty price).map Prod.fst = cart.map Prod.fst := by
  induction cart with
  | nil => rfl
  | cons e rest ih =>
    simp only [setLineQty, List.map_cons] at ih ⊢
    rw [ih]
    congr 1
    split <;> rfl

/-- Looking up the updated key after `setLineQty` returns the old line with
the new quantity and recomputed line total. -/
theorem lookupLine_setLineQty (cart : Cart) (product_id : String) (new_qty : ℤ) (price : ℚ) :
    lookupLine (setLineQty cart product_id new_qty price) product_id =
      (lookupLine cart product_id).map fun line =>
        { line with quantity := new_qty, line_total := new_qty * price } := by
  induction cart with
  | nil => rfl
  | cons e rest ih =>
    by_cases h : (e.1 == product_id) = true
    · have h2 : setLineQty (e :: rest) product_id new_qty price =
          (e.1, { e.2 with quantity := new_qty, line_total := new_qty * price }) ::
            setLineQty rest product_id new_qty price := by
        simp only [setLineQty, List.map_cons, if_pos h]
      rw [h2]
      unfold lookupLine
      simp only [List.find?_cons, h]
      rfl
    · have h2 : setLineQty (e :: rest) product_id new_qty price =
          e :: setLineQty rest product_id new_qty price := by
        simp only [setLineQty, List.map_cons, if_neg h]
      rw [Bool.not_eq_true] at h
      rw [h2]
      unfold lookupLine at ih ⊢
      simp only [List.find?_cons, h]
      exact ih

/-- A cart that passes revalidation has, for every line, a product in the
fresh snapshot with at least the line's quantity in stock. -/
theorem revalidate_ok_forall {cart : Cart} {cache : List Product}
    (h : revalidate cart cache = .ok ()) :
    ∀ e ∈ cart, ∃ p, lookupProduct cache e.1 = some p ∧ e.2.quantity ≤ p.stock := by
  induction cart with
  | nil => intro e he; cases he
  | cons hd rest ih =>
    obtain ⟨pid, line⟩ := hd
    intro e he
    cases hp : lookupProduct cache pid with
    | none =>
      simp only [revalidate, hp] at h
      exact Except.noConfusion h
    | some product =>
      simp only [revalidate, hp] at h
      by_cases hs : product.stock < line.quantity
      · rw [if_pos hs] at h
        exact Except.noConfusion h
      · rw [if_neg hs] at h
        cases he with
        | head => exact ⟨product, hp, not_lt.mp hs⟩
        | tail _ hmem => exact ih h e hmem

/-- Identity of a product is untouched by a stock write. -/
theorem setStock_id (p : Product) (pid : String) (v : ℤ) :
    (if p.product_id == pid then { p with stock := v } else p).product_id = p.product_id := by
  split <;> rfl

/-- Snapshot lookup after a stock write: the found product is the one found
before, with its stock overwritten when its id is the written one. -/
theorem lookupProduct_setStock (products : List Product) (pid q : String) (v : ℤ) :
    lookupProduct (setStock products pid v) q =
      (lookupProduct products q).map fun p =>
        if p.product_id == pid then { p with stock := v } else p := by
  induction products with
  | nil => rfl
  | cons p rest ih =>
    have hid : ((if p.product_id == pid then { p with stock := v } else p).product_id == q) =
        (p.product_id == q) := by rw [setStock_id]
    by_cases h : (p.product_id == q) = true
    · unfold setStock lookupProduct
      rw [List.map_cons, List.find?_cons, List.find?_cons, hid, h]
      rfl
    · rw [Bool.not_eq_true] at h
      unfold setStock lookupProduct at ih ⊢
      rw [List.map_cons, List.find?_cons, List.find?_cons, hid, h]
      exact ih

/-- Stock writes keep every non-negative table non-negative when the
written value is non-negative. -/
theorem setStock_nonneg {products : List Product} {pid : String} {v : ℤ}
    (hps : ∀ p ∈ products, 0 ≤ p.stock) (hv : 0 ≤ v) :
    ∀ p ∈ setStock products pid v, 0 ≤ p.stock := by
  intro p hp
  unfold setStock at hp
  obtain ⟨q, hq, hpq⟩ := List.mem_map.mp hp
  by_cases h : (q.product_id == pid) = true
  · rw [if_pos h] at hpq
    rw [← hpq]
    exact hv
  · rw [if_neg h] at hpq
    rw [← hpq]
    exact hps q hq

/-- The commit loop succeeds whenever every cart line passed revalidation
against the cache it recomputes stocks from. -/
theorem commitStock_ok {cart : Cart} {cache : List Product}
    (hv : ∀ e ∈ cart, ∃ p, lookupProduct cache e.1 = some p ∧ e.2.quantity ≤ p.stock)
    (products : List Product) :
    ∃ ps, commitStock cart cache products = .ok ps := by
  induction cart generalizing products with
  | nil => exact ⟨products, rfl⟩
  | cons hd rest ih =>
    obtain ⟨pid, line⟩ := hd
    obtain ⟨p, hp, hle⟩ := hv (pid, line) (List.mem_cons_self _ _)
    have hp' : lookupProduct cache pid = some p := hp
    have hle' : line.quantity ≤ p.stock := hle
    have hup : sqlUpdateStock products pid (p.stock - line.quantity) =
        .ok (setStock products pid (p.stock - line.quantity)) := by
      unfold sqlUpdateStock
      rw [if_neg]
      intro hc
      omega
    obtain ⟨ps, hps⟩ := ih (fun e he => hv e (List.mem_cons_of_mem _ he))
      (setStock products pid (p.stock - line.quantity))
    refine ⟨ps, ?_⟩
    simp only [commitStock, hp', hup, hps]

/-- The commit loop never drives any stock negative: with a non-negative
table and revalidated lines, every committed stock is non-negative. -/
theorem commitStock_nonneg {cart : Cart} {cache : List Product}
    (hv : ∀ e ∈ cart, ∃ p, lookupProduct cache e.1 = some p ∧ e.2.quantity ≤ p.stock) :
    ∀ {products ps : List Product}, (∀ p ∈ products, 0 ≤ p.stock) →
      commitStock cart cache products = .ok ps → ∀ p ∈ ps, 0 ≤ p.stock := by
  induction cart with
  | nil =>
    intro products ps hps h
    rw [commitStock] at h
    cases h
    exact hps
  | cons hd rest ih =>
    intro products ps hps h
    obtain ⟨pid, line⟩ := hd
    obtain ⟨p, hp, hle⟩ := hv (pid, line) (List.mem_cons_self _ _)
    have hp' : lookupProduct cache pid = some p := hp
    have hle' : line.quantity ≤ p.stock := hle
    simp only [commitStock, hp'] at h
    cases hs : sqlUpdateStock products pid (p.stock - line.quantity) with
    | error e =>
      rw [hs] at h
      exact Except.noConfusion h
    | ok products1 =>
      rw [hs] at h
      have h1 : products1 = setStock products pid (p.stock - line.quantity) := by
        unfold sqlUpdateStock at hs
        split at hs
        · exact Except.noConfusion hs
        · exact (Except.ok.inj hs).symm
      subst h1
      exact ih (fun e he => hv e (List.mem_cons_of_mem _ he))
        (setStock_nonneg hps (by omega)) h

/-- Products whose id is not a key of the cart are untouched by the commit
loop. -/
theorem commitStock_lookup_not_mem {cart : Cart} {cache : List Product} {q : String} :
    ∀ {products ps : List Product}, q ∉ cart.map Prod.fst →
      commitStock cart cache products = .ok ps →
      lookupProduct ps q = lookupProduct products q := by
  induction cart with
  | nil =>
    intro products ps _ h
    rw [commitStock] at h
    cases h
    rfl
  | cons hd rest ih =>
    intro products ps hmem h
    obtain ⟨pid, line⟩ := hd
    have hne : pid ≠ q := by
      intro hh
      exact hmem (by rw [List.map_cons, hh]; exact List.mem_cons_self _ _)
    have hmem' : q ∉ rest.map Prod.fst := fun hh =>
      hmem (by rw [List.map_cons]; exact List.mem_cons_of_mem _ hh)
    cases hp : lookupProduct cache pid with
    | none =>
      simp only [commitStock, hp] at h
      exact Except.noConfusion h
    | some product =>
      simp only [commitStock, hp] at h
      cases hs : sqlUpdateStock products pid (product.stock - line.quantity) with
      | error e =>
        rw [hs] at h
        exact Except.noConfusion h
      | ok products1 =>
        rw [hs] at h
        have h1 : products1 = setStock products pid (product.stock - line.quantity) := by
          unfold sqlUpdateStock at hs
          split at hs
          · exact Except.noConfusion hs
          · exact (Except.ok.inj hs).symm
        rw [ih hmem' h, h1, lookupProduct_setStock]
        cases hq : lookupProduct products q with
        | none => rfl
        | some p =>
          have hpq : p.product_id = q := (lookupProduct_mem hq).2
          have : (p.product_id == pid) = false := by
            rw [hpq]
            exact beq_false_of_ne (Ne.symm hne)
          rw [Option.map_some', this]
          rfl

/-- With pairwise-distinct cart keys, the commit loop writes, for each cart
line, exactly the fresh-snapshot stock minus the line quantity. -/
theorem commitStock_decrements {cart : Cart} {cache : List Product} :
    ∀ {products ps : List Product}, (cart.map Prod.fst).Nodup →
      (∀ e ∈ cart, lookupProduct products e.1 = lookupProduct cache e.1) →
      commitStock cart cache products = .ok ps →
      ∀ e ∈ cart, ∃ p, lookupProduct cache e.1 = some p ∧
        lookupProduct ps e.1 = some { p with stock := p.stock - e.2.quantity } := by
  induction cart with
  | nil =>
    intro products ps _ _ _ e he
    cases he
  | cons hd rest ih =>
    intro products ps hnodup hagree h e he
    obtain ⟨pid, line⟩ := hd
    rw [List.map_cons, List.nodup_cons] at hnodup
    cases hp : lookupProduct cache pid with
    | none =>
      simp only [commitStock, hp] at h
      exact Except.noConfusion h
    | some product =>
      simp only [commitStock, hp] at h
      cases hs : sqlUpdateStock products pid (product.stock - line.quantity) with
      | error er =>
        rw [hs] at h
        exact Except.noConfusion h
      | ok products1 =>
        rw [hs] at h
        have h1 : products1 = setStock products pid (product.stock - line.quantity) := by
          unfold sqlUpdateStock at hs
          split at hs
          · exact Except.noConfusion hs
          · exact (Except.ok.inj hs).symm
        have hpid : product.product_id = pid := (lookupProduct_mem hp).2
        have hlook1 : lookupProduct products1 pid =
            some { product with stock := product.stock - line.quantity } := by
          rw [h1, lookupProduct_setStock,
            (hagree (pid, line) (List.mem_cons_self _ _)).trans hp, Option.map_some', hpid]
          simp
        have hagree' : ∀ e ∈ rest, lookupProduct products1 e.1 = lookupProduct cache e.1 := by
          intro e' he'
          have hne : e'.1 ≠ pid := by
            intro hh
            apply hnodup.1
            rw [← hh]
            exact List.mem_map.mpr ⟨e', he', rfl⟩
          rw [h1, lookupProduct_setStock, hagree e' (List.mem_cons_of_mem _ he')]
          cases hq : lookupProduct cache e'.1 with
          | none => rfl
          | some pe =>
            have : (pe.product_id == pid) = false := by
              rw [(lookupProduct_mem hq).2]
              exact beq_false_of_ne hne
            rw [Option.map_some', this]
            rfl
        cases he with
        | head =>
          refine ⟨product, hp, ?_⟩
          rw [commitStock_lookup_not_mem hnodup.1 h]
          exact hlook1
        | tail _ hmem => exact ih hnodup.2 hagree' h e hmem

/-- A failed cart lookup means the product id is not among the cart keys. -/
theorem lookupLine_none_iff {cart : Cart} {pid : String} :
    lookupLine cart pid = none ↔ pid ∉ cart.map Prod.fst := by
  unfold lookupLine
  rw [Option.map_eq_none', List.find?_eq_none]
  constructor
  · intro h hmem
    obtain ⟨e, he, hfst⟩ := List.mem_map.mp hmem
    have hne := h e he
    rw [hfst] at hne
    exact hne (beq_self_eq_true pid)
  · intro h e he hbeq
    have hfst : e.1 = pid := by simpa using hbeq
    apply h
    rw [← hfst]
    exact List.mem_map_of_mem Prod.fst he

/-- Successful `add_to_cart` calls preserve distinctness of the cart's
keys. -/
theorem add_to_cart_keys_nodup {cart cart1 : Cart} {cache : List Product}
    {pid : String} {q : Option ℤ}
    (hnodup : (cart.map Prod.fst).Nodup)
    (h : add_to_cart cart cache pid q = .ok cart1) :
    (cart1.map Prod.fst).Nodup := by
  cases q with
  | none => exact Except.noConfusion h
  | some v =>
    simp only [add_to_cart] at h
    by_cases hv : v ≤ 0
    · rw [if_pos hv] at h
      exact Except.noConfusion h
    · rw [if_neg hv] at h
      cases hp : lookupProduct cache pid with
      | none =>
        simp only [hp] at h
        exact Except.noConfusion h
      | some product =>
        simp only [hp] at h
        by_cases hst : product.stock < v
        · rw [if_pos hst] at h
          exact Except.noConfusion h
        · rw [if_neg hst] at h
          cases hl : lookupLine cart pid with
          | some line =>
            simp only [hl] at h
            by_cases hcum : product.stock < line.quantity + v
            · rw [if_pos hcum] at h
              exact Except.noConfusion h
            · rw [if_neg hcum] at h
              rw [← Except.ok.inj h, setLineQty_keys]
              exact hnodup
          | none =>
            simp only [hl] at h
            rw [← Except.ok.inj h, List.map_append]
            rw [List.nodup_append]
            refine ⟨hnodup, List.nodup_singleton _, ?_⟩
            intro a ha hb
            rw [List.map_cons, List.map_nil, List.mem_singleton] at hb
            have hb' : a = pid := hb
            exact lookupLine_none_iff.mp hl (hb' ▸ ha)

/-- A cart built from empty by any session of `add_to_cart` calls has
pairwise-distinct keys: at most one line per product. -/
theorem applyAdds_keys_nodup (rs : List AddRequest) :
    ((applyAdds [] rs).map Prod.fst).Nodup := by
  suffices h : ∀ (cart : Cart), (cart.map Prod.fst).Nodup →
      ((applyAdds cart rs).map Prod.fst).Nodup from h [] (by simp)
  induction rs with
  | nil => intro cart hc; exact hc
  | cons r rest ih =>
    intro cart hc
    rw [applyAdds]
    cases h : add_to_cart cart r.cache r.product_id r.quantity with
    | ok cart1 => exact ih cart1 (add_to_cart_keys_nodup hc h)
    | error e => exact ih cart hc

/-- Two tables with the same ids and stocks (prices and names may differ)
answer every snapshot lookup with products of equal id and stock. -/
theorem lookupProduct_stockView {ps qs : List Product}
    (h : stockView ps = stockView qs) (pid : String) :
    Option.map (fun p => (p.product_id, p.stock)) (lookupProduct ps pid) =
      Option.map (fun p => (p.product_id, p.stock)) (lookupProduct qs pid) := by
  induction ps generalizing qs with
  | nil =>
    cases qs with
    | nil => rfl
    | cons q qt => exact absurd h (by simp [stockView])
  | cons p pt ih =>
    cases qs with
    | nil => exact absurd h (by simp [stockView])
    | cons q qt =>
      simp only [stockView, List.map_cons, List.cons.injEq, Prod.mk.injEq] at h
      obtain ⟨⟨hid, hstock⟩, htl⟩ := h
      unfold lookupProduct
      by_cases hp : (p.product_id == pid) = true
      · have hq : (q.product_id == pid) = true := by rw [← hid]; exact hp
        simp only [List.find?_cons, hp, hq, Option.map_some']
        simp [hid, hstock]
      · have hq : ¬ (q.product_id == pid) = true := by rw [← hid]; exact hp
        rw [Bool.not_eq_true] at hp hq
        simp only [List.find?_cons, hp, hq]
        exact ih (by simpa [stockView] using htl)

/-- Revalidation looks only at ids and stocks of the fresh snapshot: it
succeeds on one snapshot iff it succeeds on any snapshot with the same
stock view. -/
theorem revalidate_stockView {cart : Cart} {ps qs : List Product}
    (h : stockView ps = stockView qs)
    (hok : revalidate cart ps = .ok ()) : revalidate cart qs = .ok () := by
  induction cart with
  | nil => rfl
  | cons hd rest ih =>
    obtain ⟨pid, line⟩ := hd
    have hlv := lookupProduct_stockView h pid
    cases hp : lookupProduct ps pid with
    | none =>
      simp only [revalidate, hp] at hok
      exact Except.noConfusion hok
    | some p =>
      rw [hp] at hlv
      cases hq : lookupProduct qs pid with
      | none =>
        rw [hq] at hlv
        exact Option.noConfusion hlv
      | some q =>
        rw [hq] at hlv
        have hstock : p.stock = q.stock := by
          have := Option.some.inj hlv
          exact (Prod.mk.injEq _ _ _ _).mp this |>.2
        simp only [revalidate, hp] at hok
        by_cases hs : p.stock < line.quantity
        · rw [if_pos hs] at hok
          exact Except.noConfusion hok
        · rw [if_neg hs] at hok
          simp only [revalidate, hq]
          rw [if_neg (hstock ▸ hs)]
          exact ih hok

/-! Claim theorems. -/

/-- C5: calling `finalize_sale` on a cart with no lines fails with the
empty-cart error and changes nothing: the returned state is the input state,
so no sale row is appended, no stock changes, and the cart stays empty. -/
theorem finalize_sale_empty_cart (now : String) (st : SalesState)
    (h : st.cart = []) :
    finalize_sale now st = (st, .error .emptyCart) := by
  simp [finalize_sale, h]

/-- Witness for `finalize_sale_empty_cart` at a concrete state. -/
theorem finalize_sale_empty_cart_witness :
    finalize_sale "2024-01-01 00:00:00"
        { products := [{ product_id := "P1", name := "Widget", price := 5/2, stock := 10 }],
          sales_log := [], cart := [] } =
      ({ products := [{ product_id := "P1", name := "Widget", price := 5/2, stock := 10 }],
         sales_log := [], cart := [] }, .error .emptyCart) :=
  finalize_sale_empty_cart _ _ rfl

/-- C1: when the revalidation step of `finalize_sale` fails for some cart
line (product missing from the fresh snapshot or quantity above its fresh
stock), the whole call aborts with no effect: the products table (hence
every product's stock), the sales log, and the cart (hence every line's
id, name, price, quantity and line total) are exactly as before the call,
and the error is the revalidation error. -/
theorem finalize_sale_revalidation_failure_frame (now : String) (st : SalesState)
    (e : POSError) (hfail : revalidate st.cart st.products = .error e) :
    (finalize_sale now st).1.products = st.products ∧
    (finalize_sale now st).1.sales_log = st.sales_log ∧
    (finalize_sale now st).1.cart = st.cart ∧
    (finalize_sale now st).2 = .error e := by
  have hne : st.cart.isEmpty = false := by
    cases hc : st.cart with
    | nil => rw [hc] at hfail; simp [revalidate] at hfail
    | cons a l => rfl
  simp [finalize_sale, hne, hfail]

/-- Witness for `finalize_sale_revalidation_failure_frame`: one line of
quantity 5 against fresh stock 3. -/
theorem finalize_sale_revalidation_failure_frame_witness :
    (finalize_sale "ts" lowStockState).1.products = lowStockState.products ∧
    (finalize_sale "ts" lowStockState).1.sales_log = lowStockState.sales_log ∧
    (finalize_sale "ts" lowStockState).1.cart = lowStockState.cart ∧
    (finalize_sale "ts" lowStockState).2 = .error (.insufficientStock "Widget" 3) :=
  finalize_sale_revalidation_failure_frame "ts" lowStockState _ rfl

/-- C7: a quantity that is not a positive integer (unparseable text, zero,
or negative) makes `add_to_cart` fail with the invalid-quantity error — and
since the embedded call returns without producing a new cart, the cart is
unchanged — while a positive integer quantity can never produce that
error. -/
theorem add_to_cart_invalid_quantity (cart : Cart) (cache : List Product)
    (product_id : String) (quantity : Option ℤ) :
    ((quantity = none ∨ ∃ v, quantity = some v ∧ v ≤ 0) →
      add_to_cart cart cache product_id quantity = .error .invalidQuantity) ∧
    (∀ v, quantity = some v → 0 < v →
      add_to_cart cart cache product_id quantity ≠ .error .invalidQuantity) := by
  constructor
  · rintro (rfl | ⟨v, rfl, hv⟩)
    · rfl
    · simp [add_to_cart, hv]
  · rintro v rfl hv
    have hv' : ¬ v ≤ 0 := not_le.mpr hv
    simp only [add_to_cart, if_neg hv']
    cases h : lookupProduct cache product_id with
    | none => simp
    | some product =>
      simp only
      split
      · simp
      · cases hl : lookupLine cart product_id with
        | none => simp
        | some line =>
          simp only
          split <;> simp

/-- Witness for `add_to_cart_invalid_quantity` at quantity 0 and quantity 2. -/
theorem add_to_cart_invalid_quantity_witness :
    add_to_cart [] [⟨"P1", "Widget", 5/2, 10⟩] "P1" (some 0) = .error .invalidQuantity ∧
    add_to_cart [] [⟨"P1", "Widget", 5/2, 10⟩] "P1" (some 2) ≠ .error .invalidQuantity :=
  ⟨(add_to_cart_invalid_quantity [] [⟨"P1", "Widget", 5/2, 10⟩] "P1" (some 0)).1
      (Or.inr ⟨0, rfl, le_refl 0⟩),
   (add_to_cart_invalid_quantity [] [⟨"P1", "Widget", 5/2, 10⟩] "P1" (some 2)).2
      2 rfl (by decide)⟩

/-- C4: `add_to_cart` with a positive quantity on a product present in the
snapshot.  When a line for the product exists (with the positive quantity
every reachable line has): if the existing quantity plus the requested one
fits within the snapshot stock, the call succeeds, the line's quantity
becomes that sum with line total recomputed as quantity times the unit
price, and the key sequence is unchanged (no duplicate line); if the
cumulative quantity exceeds the stock, the call fails with the
insufficient-stock error — and, with no line present, a requested quantity
above the stock fails the same way.  Failures return before any cart
mutation, so the cart is left completely unchanged. -/
theorem add_to_cart_cumulative_spec (cart : Cart) (cache : List Product)
    (product_id : String) (q : ℤ) (hq : 0 < q) (product : Product)
    (hp : lookupProduct cache product_id = some product) :
    (lookupLine cart product_id = none → product.stock < q →
      add_to_cart cart cache product_id (some q) =
        .error (.insufficientStock product.name product.stock)) ∧
    (∀ line, lookupLine cart product_id = some line → 0 < line.quantity →
      (product.stock < line.quantity + q →
        add_to_cart cart cache product_id (some q) =
          .error (.insufficientStock product.name product.stock)) ∧
      (line.quantity + q ≤ product.stock →
        add_to_cart cart cache product_id (some q) =
          .ok (setLineQty cart product_id (line.quantity + q) product.price) ∧
        (setLineQty cart product_id (line.quantity + q) product.price).map Prod.fst =
          cart.map Prod.fst ∧
        lookupLine (setLineQty cart product_id (line.quantity + q) product.price)
            product_id =
          some ⟨line.name, line.price, line.quantity + q,
                (line.quantity + q) * product.price⟩)) := by
  have hq' : ¬ q ≤ 0 := not_le.mpr hq
  constructor
  · intro hnone hlt
    simp only [add_to_cart, if_neg hq', hp, if_pos hlt]
  · intro line hline hpos
    constructor
    · intro hover
      by_cases hfirst : product.stock < q
      · simp only [add_to_cart, if_neg hq', hp, if_pos hfirst]
      · simp only [add_to_cart, if_neg hq', hp, if_neg hfirst, hline, if_pos hover]
    · intro hle
      have hfirst : ¬ product.stock < q := by omega
      have hsecond : ¬ product.stock < line.quantity + q := not_lt.mpr hle
      refine ⟨?_, setLineQty_keys cart product_id (line.quantity + q) product.price, ?_⟩
      · simp only [add_to_cart, if_neg hq', hp, if_neg hfirst, hline, if_neg hsecond]
      · rw [lookupLine_setLineQty, hline]
        simp [Int.cast_add]

/-- Witness for `add_to_cart_cumulative_spec`: Scenario A's cart with a
P1 line of quantity 3 against stock 10 — adding 3 more succeeds with
quantity 6 and line total 15.00; adding 5 to the quantity-6 cart is
rejected with the insufficient-stock error. -/
theorem add_to_cart_cumulative_spec_witness :
    add_to_cart [("P1", ⟨"Widget", 5/2, 3, 15/2⟩)] exInv "P1" (some 3) =
      .ok [("P1", ⟨"Widget", 5/2, 6, 15⟩)] ∧
    add_to_cart [("P1", ⟨"Widget", 5/2, 6, 15⟩)] exInv "P1" (some 5) =
      .error (.insufficientStock "Widget" 10) := by
  constructor
  · have h := (((add_to_cart_cumulative_spec [("P1", ⟨"Widget", 5/2, 3, 15/2⟩)] exInv "P1"
        3 (by decide) ⟨"P1", "Widget", 5/2, 10⟩ rfl).2
        ⟨"Widget", 5/2, 3, 15/2⟩ rfl (by decide)).2 (by decide)).1
    rw [h]
    norm_num [setLineQty]
  · exact ((add_to_cart_cumulative_spec [("P1", ⟨"Widget", 5/2, 6, 15⟩)] exInv "P1"
      5 (by decide) ⟨"P1", "Widget", 5/2, 10⟩ rfl).2
      ⟨"Widget", 5/2, 6, 15⟩ rfl (by decide)).1 (by decide)

/-- C2: for every session of `add_to_cart` calls from an empty cart
followed by a `finalize_sale` that commits, starting from any non-negative
products table: every committed stock is non-negative, and every cart
line's product was found in the fresh snapshot with stock at least the line
quantity and ends with exactly that snapshot stock minus the line quantity
(the committed decrement equals the line quantity). -/
theorem no_oversell (now : String) (rs : List AddRequest)
    (products : List Product) (log : List SaleRow)
    (hpos : ∀ p ∈ products, 0 ≤ p.stock) (r : SaleRecord)
    (hok : (finalize_sale now ⟨products, log, applyAdds [] rs⟩).2 = .ok r) :
    (∀ p ∈ (finalize_sale now ⟨products, log, applyAdds [] rs⟩).1.products, 0 ≤ p.stock) ∧
    (∀ e ∈ applyAdds [] rs, ∃ p, lookupProduct products e.1 = some p ∧
      e.2.quantity ≤ p.stock ∧
      lookupProduct (finalize_sale now ⟨products, log, applyAdds [] rs⟩).1.products e.1 =
        some { p with stock := p.stock - e.2.quantity }) := by
  by_cases hemp : (applyAdds [] rs).isEmpty
  · rw [show (finalize_sale now ⟨products, log, applyAdds [] rs⟩) =
        (⟨products, log, applyAdds [] rs⟩, .error .emptyCart) from by
      simp [finalize_sale, hemp]] at hok
    exact Except.noConfusion hok
  · cases hrv : revalidate (applyAdds [] rs) products with
    | error e =>
      rw [show (finalize_sale now ⟨products, log, applyAdds [] rs⟩) =
          (⟨products, log, applyAdds [] rs⟩, .error e) from by
        simp [finalize_sale, hemp, hrv]] at hok
      exact Except.noConfusion hok
    | ok u =>
      cases u
      have hv := revalidate_ok_forall hrv
      obtain ⟨ps, hcs⟩ := commitStock_ok hv products
      have hres : (finalize_sale now ⟨products, log, applyAdds [] rs⟩).1.products = ps := by
        simp [finalize_sale, hemp, hrv, hcs]
      constructor
      · rw [hres]
        exact commitStock_nonneg hv hpos hcs
      · intro e he
        obtain ⟨p, hp, hle⟩ := hv e he
        obtain ⟨p', hp', hd⟩ :=
          commitStock_decrements (applyAdds_keys_nodup rs) (fun _ _ => rfl) hcs e he
        rw [hp] at hp'
        cases hp'
        refine ⟨p, hp, hle, ?_⟩
        rw [hres]
        exact hd

/-- Witness for `no_oversell`: one add of quantity 3 against stock 10
commits stock 7, which is non-negative. -/
theorem no_oversell_witness :
    (0 : ℤ) ≤ (Product.mk "P1" "Widget" (5/2) 7).stock := by
  have hone : applyAdds [] [⟨exInv, "P1", some 3⟩] =
      [("P1", ⟨"Widget", 5/2, 3, 3 * (5/2)⟩)] := by
    simp [applyAdds, add_to_cart, lookupProduct, lookupLine, exInv]
  have hrv : revalidate [("P1", ⟨"Widget", 5/2, 3, 3 * (5/2)⟩)] exInv = .ok () := by
    simp [revalidate, lookupProduct, exInv]
  have hcs : commitStock [("P1", ⟨"Widget", 5/2, 3, 3 * (5/2)⟩)] exInv exInv =
      .ok [⟨"P1", "Widget", 5/2, 7⟩] := by
    simp [commitStock, sqlUpdateStock, setStock, lookupProduct, exInv]
  have hok : (finalize_sale "ts" ⟨exInv, [], applyAdds [] [⟨exInv, "P1", some 3⟩]⟩).2 =
      .ok ⟨1, "ts", cartSubtotal [("P1", ⟨"Widget", 5/2, 3, 3 * (5/2)⟩)],
        cartSubtotal [("P1", ⟨"Widget", 5/2, 3, 3 * (5/2)⟩)],
        cartItems [("P1", ⟨"Widget", 5/2, 3, 3 * (5/2)⟩)]⟩ := by
    rw [hone]
    simp [finalize_sale, hrv, hcs]
  have hmem : (Product.mk "P1" "Widget" (5/2) 7) ∈
      (finalize_sale "ts" ⟨exInv, [], applyAdds [] [⟨exInv, "P1", some 3⟩]⟩).1.products := by
    rw [show (finalize_sale "ts" ⟨exInv, [], applyAdds [] [⟨exInv, "P1", some 3⟩]⟩).1.products =
        [⟨"P1", "Widget", 5/2, 7⟩] from by rw [hone]; simp [finalize_sale, hrv, hcs]]
    exact List.Mem.head _
  exact (no_oversell "ts" [⟨exInv, "P1", some 3⟩] exInv []
    (by simp [exInv]) _ hok).1 _ hmem

/-- C3 counterexample: on the Scenario-B cart (P1 qty 6 at 2.50, P2 qty 1
at 9.99) `finalize_sale` commits subtotal 24.99 but logs the hardcoded tax
0 and total 24.99 — not tax 3.7485 (= 24.99 × 0.15) and total 28.7385 as
the claim states; no configuration-supplied tax rate enters the
computation. -/
theorem finalize_sale_tax_zero_counterexample :
    (finalize_sale "ts" stateB).2 =
      .ok ⟨1, "ts", 2499/100, 2499/100, cartItems cartB⟩ ∧
    (finalize_sale "ts" stateB).1.sales_log.map SaleRow.tax = [0] ∧
    ((2499 : ℚ)/100 ≠ 287385/10000) ∧ ((0 : ℚ) ≠ 37485/10000) := by
  have hemp : cartB.isEmpty = false := rfl
  have hrv : revalidate cartB prodB = .ok () := by
    simp [revalidate, lookupProduct, prodB, cartB]
  have hcs : commitStock cartB prodB prodB =
      .ok [⟨"P1", "Apple", 5/2, 4⟩, ⟨"P2", "Boxed Tea", 999/100, 3⟩] := by
    simp [commitStock, sqlUpdateStock, setStock, lookupProduct, prodB, cartB]
  have hsub : cartSubtotal cartB = 2499/100 := by
    norm_num [cartSubtotal, cartB]
  have hfin : finalize_sale "ts" stateB =
      ({ products := [⟨"P1", "Apple", 5/2, 4⟩, ⟨"P2", "Boxed Tea", 999/100, 3⟩],
         sales_log := [⟨"ts", 2499/100, 0, 2499/100, cartItems cartB⟩],
         cart := [] },
       .ok ⟨1, "ts", 2499/100, 2499/100, cartItems cartB⟩) := by
    simp [finalize_sale, stateB, hemp, hrv, hcs, hsub]
  refine ⟨by rw [hfin], by rw [hfin]; rfl, by norm_num, by norm_num⟩

/-- C3 amended: for a cart that passes revalidation, `finalize_sale`
computes the subtotal as the sum of the cart's line totals, uses the
hardcoded tax 0.0 rather than a configuration-supplied tax rate, and sets
total = subtotal (so total = subtotal + tax still holds, with tax 0); the
logged sale row records exactly these values, and the returned SaleRecord
(which has no tax field) carries the same subtotal and total.  On the
Scenario-B cart this gives subtotal 24.99, tax 0, total 24.99. -/
theorem finalize_sale_totals (now : String) (st : SalesState) (r : SaleRecord)
    (hok : (finalize_sale now st).2 = .ok r) :
    r.subtotal = cartSubtotal st.cart ∧
    r.total = r.subtotal ∧
    r.items = cartItems st.cart ∧
    (finalize_sale now st).1.sales_log =
      st.sales_log ++ [⟨now, r.subtotal, 0, r.total, r.items⟩] := by
  by_cases hemp : st.cart.isEmpty
  · simp [finalize_sale, hemp] at hok
  · cases hrv : revalidate st.cart st.products with
    | error e => simp [finalize_sale, hemp, hrv] at hok
    | ok u =>
      cases u
      cases hcs : commitStock st.cart st.products st.products with
      | error e => simp [finalize_sale, hemp, hrv, hcs] at hok
      | ok ps =>
        have hr : r = ⟨st.sales_log.length + 1, now, cartSubtotal st.cart,
            cartSubtotal st.cart, cartItems st.cart⟩ := by
          simp [finalize_sale, hemp, hrv, hcs] at hok
          exact hok.symm
        subst hr
        refine ⟨rfl, rfl, rfl, ?_⟩
        simp [finalize_sale, hemp, hrv, hcs]

/-- Witness for `finalize_sale_totals` at the Scenario-B state. -/
theorem finalize_sale_totals_witness :
    (finalize_sale "ts" stateB).1.sales_log =
      stateB.sales_log ++ [⟨"ts", 2499/100, 0, 2499/100, cartItems cartB⟩] := by
  have hemp : cartB.isEmpty = false := rfl
  have hrv : revalidate cartB prodB = .ok () := by
    simp [revalidate, lookupProduct, prodB, cartB]
  have hcs : commitStock cartB prodB prodB =
      .ok [⟨"P1", "Apple", 5/2, 4⟩, ⟨"P2", "Boxed Tea", 999/100, 3⟩] := by
    simp [commitStock, sqlUpdateStock, setStock, lookupProduct, prodB, cartB]
  have hsub : cartSubtotal cartB = 2499/100 := by
    norm_num [cartSubtotal, cartB]
  have hok : (finalize_sale "ts" stateB).2 =
      .ok ⟨1, "ts", 2499/100, 2499/100, cartItems cartB⟩ := by
    simp [finalize_sale, stateB, hemp, hrv, hcs, hsub]
  exact (finalize_sale_totals "ts" stateB _ hok).2.2.2

/-- C9: the price charged at finalize is the one stored in the cart line,
not the fresh snapshot's current price.  For every committed sale the
recorded items are exactly the cart lines' stored values (price and
line total included), and replacing the snapshot by any table with the same
ids and stocks but different prices (or names) commits the very same
record: prices in the Inventory Store at finalize time do not affect the
amount charged — only stock is re-read. -/
theorem finalize_sale_price_from_cart (now : String) (products products' : List Product)
    (log : List SaleRow) (cart : Cart)
    (hview : stockView products = stockView products')
    (r : SaleRecord) (hok : (finalize_sale now ⟨products, log, cart⟩).2 = .ok r) :
    r.items = cartItems cart ∧
    (∀ it ∈ r.items, ∃ line, (it.product_id, line) ∈ cart ∧
      it.price = line.price ∧ it.line_total = line.line_total) ∧
    (finalize_sale now ⟨products', log, cart⟩).2 = .ok r := by
  by_cases hemp : cart.isEmpty
  · rw [show finalize_sale now ⟨products, log, cart⟩ =
        (⟨products, log, cart⟩, .error .emptyCart) from by simp [finalize_sale, hemp]] at hok
    exact Except.noConfusion hok
  · cases hrv : revalidate cart products with
    | error e =>
      rw [show finalize_sale now ⟨products, log, cart⟩ =
          (⟨products, log, cart⟩, .error e) from by simp [finalize_sale, hemp, hrv]] at hok
      exact Except.noConfusion hok
    | ok u =>
      cases u
      obtain ⟨ps, hcs⟩ := commitStock_ok (revalidate_ok_forall hrv) products
      have hrv' : revalidate cart products' = .ok () := revalidate_stockView hview hrv
      obtain ⟨ps', hcs'⟩ := commitStock_ok (revalidate_ok_forall hrv') products'
      have hr : r = ⟨log.length + 1, now, cartSubtotal cart,
          cartSubtotal cart, cartItems cart⟩ := by
        simp [finalize_sale, hemp, hrv, hcs] at hok
        exact hok.symm
      subst hr
      refine ⟨rfl, ?_, ?_⟩
      · intro it hit
        obtain ⟨e, he, hfe⟩ := List.mem_map.mp hit
        refine ⟨e.2, ?_, ?_, ?_⟩
        · rw [← hfe]
          simpa using he
        · rw [← hfe]
        · rw [← hfe]
      · simp [finalize_sale, hemp, hrv', hcs']

/-- Witness for `finalize_sale_price_from_cart`: the cart line stores unit
price 2.50 (line total 5.00 for quantity 2) while the finalize-time
snapshot lists the product at price 99; the committed record still charges
5.00. -/
theorem finalize_sale_price_from_cart_witness :
    (finalize_sale "ts"
        ⟨[⟨"P1", "Widget", 99, 10⟩], [], [("P1", ⟨"Widget", 5/2, 2, 5⟩)]⟩).2 =
      .ok ⟨1, "ts", 5, 5, [⟨"P1", "Widget", 2, 5/2, 5⟩]⟩ := by
  have hrv : revalidate [("P1", ⟨"Widget", 5/2, 2, 5⟩)] [⟨"P1", "Widget", 5/2, 10⟩] =
      .ok () := by
    simp [revalidate, lookupProduct]
  have hcs : commitStock [("P1", ⟨"Widget", 5/2, 2, 5⟩)] [⟨"P1", "Widget", 5/2, 10⟩]
      [⟨"P1", "Widget", 5/2, 10⟩] = .ok [⟨"P1", "Widget", 5/2, 8⟩] := by
    simp [commitStock, sqlUpdateStock, setStock, lookupProduct]
  have hok : (finalize_sale "ts"
      ⟨[⟨"P1", "Widget", 5/2, 10⟩], [], [("P1", ⟨"Widget", 5/2, 2, 5⟩)]⟩).2 =
      .ok ⟨1, "ts", 5, 5, [⟨"P1", "Widget", 2, 5/2, 5⟩]⟩ := by
    simp [finalize_sale, hrv, hcs, cartSubtotal, cartItems]
  exact (finalize_sale_price_from_cart "ts" [⟨"P1", "Widget", 5/2, 10⟩]
    [⟨"P1", "Widget", 99, 10⟩] [] [("P1", ⟨"Widget", 5/2, 2, 5⟩)]
    (by simp [stockView]) _ hok).2.2

/-- C10: `format_currency` is total by construction (it returns a string
for every rational amount and every code, raising nothing), and on any code
that is not a supported currency it falls back to the default (USD) entry:
its output equals the output for `DEFAULT_CURRENCY`. -/
theorem format_currency_fallback (amount : ℚ) (code : String)
    (h : (SUPPORTED_CURRENCIES.find? fun e => e.1 == code) = none) :
    format_currency amount code = format_currency amount DEFAULT_CURRENCY := by
  unfold format_currency
  rw [h]
  rfl

/-- Witness for `format_currency_fallback` at the unsupported code "XXX". -/
theorem format_currency_fallback_witness :
    format_currency 5 "XXX" = format_currency 5 DEFAULT_CURRENCY :=
  format_currency_fallback 5 "XXX" rfl

/-- C8: `format_invoice` is embedded as a pure function of the sale record
and the formatting configuration (the language selecting the label catalog
entries and the currency selecting the display pattern) — the source reads
nothing else and writes nothing — so two calls with identical arguments
produce byte-for-byte identical output. -/
theorem format_invoice_deterministic (s s' : SaleRecord) (lang lang' curr curr' : String)
    (hs : s = s') (hl : lang = lang') (hc : curr = curr') :
    format_invoice s lang curr = format_invoice s' lang' curr' := by
  rw [hs, hl, hc]

/-- Witness for `format_invoice_deterministic` at a concrete sale record. -/
theorem format_invoice_deterministic_witness :
    format_invoice ⟨7, "2024-01-01 00:00:00", 2499/100, 2499/100,
        [⟨"P1", "Apple", 6, 5/2, 15⟩, ⟨"P2", "Tea", 1, 999/100, 999/100⟩]⟩ "en" "USD" =
      format_invoice ⟨7, "2024-01-01 00:00:00", 2499/100, 2499/100,
        [⟨"P1", "Apple", 6, 5/2, 15⟩, ⟨"P2", "Tea", 1, 999/100, 999/100⟩]⟩ "en" "USD" :=
  format_invoice_deterministic _ _ _ _ _ _ rfl rfl rfl

/-- C6 counterexample: the store's stock operation does not apply a signed
delta.  With product "P1" at stock 10, `update_stock "P1" 3` sets the stock
to the absolute value 3 — not to 10 + 3 — and `update_stock "P1" (-1)`
(which as a delta would leave stock 9 and succeed) is rejected by the
database CHECK constraint, not by an insufficient-stock error. -/
theorem update_stock_not_delta_counterexample :
    update_stock [⟨"P1", "Widget", 5/2, 10⟩] "P1" 3 =
      .ok [⟨"P1", "Widget", 5/2, 3⟩] ∧
    (3 : ℤ) ≠ 10 + 3 ∧
    update_stock [⟨"P1", "Widget", 5/2, 10⟩] "P1" (-1) = .error .integrityError :=
  ⟨rfl, by decide, rfl⟩

/-- C6 amended: `update_stock(product_id, new_stock)` takes the new
absolute stock value rather than a signed change.  It fails with the
not-found error when no product has the given id; when the product exists,
a negative new value is rejected (stock unchanged) by the schema's
`CHECK(stock >= 0)` constraint rather than by an explicit
insufficient-stock re-check, and a non-negative value is written. -/
theorem update_stock_spec (products : List Product) (product_id : String) (v : ℤ) :
    ((¬ ∃ p ∈ products, p.product_id = product_id) →
      update_stock products product_id v = .error .productNotFound) ∧
    ((∃ p ∈ products, p.product_id = product_id) → v < 0 →
      update_stock products product_id v = .error .integrityError) ∧
    ((∃ p ∈ products, p.product_id = product_id) → 0 ≤ v →
      update_stock products product_id v = .ok (setStock products product_id v)) := by
  have hany : (products.any fun p => p.product_id == product_id) = true ↔
      ∃ p ∈ products, p.product_id = product_id := by
    simp [List.any_eq_true]
  refine ⟨fun h => ?_, fun h hv => ?_, fun h hv => ?_⟩
  · unfold update_stock
    rw [if_neg]
    intro hc
    exact h (hany.mp hc)
  · unfold update_stock
    rw [if_pos (hany.mpr h), if_pos hv]
  · unfold update_stock
    rw [if_pos (hany.mpr h), if_neg (not_lt.mpr hv)]

/-- Witness for `update_stock_spec` at a concrete one-product table. -/
theorem update_stock_spec_witness :
    update_stock exInv "P2" 4 = .error .productNotFound ∧
    update_stock exInv "P1" (-2) = .error .integrityError ∧
    update_stock exInv "P1" 4 = .ok (setStock exInv "P1" 4) :=
  ⟨(update_stock_spec exInv "P2" 4).1 (by simp [exInv]),
   (update_stock_spec exInv "P1" (-2)).2.1
      ⟨⟨"P1", "Widget", 5/2, 10⟩, List.Mem.head _, rfl⟩ (by decide),
   (update_stock_spec exInv "P1" 4).2.2
      ⟨⟨"P1", "Widget", 5/2, 10⟩, List.Mem.head _, rfl⟩ (by decide)⟩

end POS
